import Mathlib

/-!
Verification of the Artvision copyright-protection core
(`system/scripts/copyright_protector.py`, `system/scripts/retry_blockchain.py`)
against its natural-language specification.

The Python code is shallowly embedded: bytes are `List Nat` (each < 256),
Python `str` values that matter for hashing are code-point sequences
(`List Nat`), the filesystem and the network are an explicit environment
record, and every side effect (proof-file write, anchor submission,
registry persist) is recorded in an explicit event trace.
-/

/-! ## SHA-256 (model of `hashlib.sha256`) -/

namespace SHA256

def w32 : Nat := 4294967296

def add32 (a b : Nat) : Nat := (a + b) % w32

def rotr (x n : Nat) : Nat := ((x >>> n) ||| (x <<< (32 - n))) % w32

def xor32 (a b : Nat) : Nat := a ^^^ b

def not32 (x : Nat) : Nat := x ^^^ (w32 - 1)

def smallSigma0 (x : Nat) : Nat := (rotr x 7) ^^^ (rotr x 18) ^^^ (x >>> 3)

def smallSigma1 (x : Nat) : Nat := (rotr x 17) ^^^ (rotr x 19) ^^^ (x >>> 10)

def bigSigma0 (x : Nat) : Nat := (rotr x 2) ^^^ (rotr x 13) ^^^ (rotr x 22)

def bigSigma1 (x : Nat) : Nat := (rotr x 6) ^^^ (rotr x 11) ^^^ (rotr x 25)

def ch (x y z : Nat) : Nat := (x &&& y) ^^^ ((not32 x) &&& z)

def maj (x y z : Nat) : Nat := (x &&& y) ^^^ (x &&& z) ^^^ (y &&& z)

def K : List Nat :=
  [0x428a2f98, 0x71374491, 0xb5c0fbcf, 0xe9b5dba5, 0x3956c25b, 0x59f111f1, 0x923f82a4, 0xab1c5ed5]
  ++ [0xd807aa98, 0x12835b01, 0x243185be, 0x550c7dc3, 0x72be5d74, 0x80deb1fe, 0x9bdc06a7, 0xc19bf174]
  ++ [0xe49b69c1, 0xefbe4786, 0x0fc19dc6, 0x240ca1cc, 0x2de92c6f, 0x4a7484aa, 0x5cb0a9dc, 0x76f988da]
  ++ [0x983e5152, 0xa831c66d, 0xb00327c8, 0xbf597fc7, 0xc6e00bf3, 0xd5a79147, 0x06ca6351, 0x14292967]
  ++ [0x27b70a85, 0x2e1b2138, 0x4d2c6dfc, 0x53380d13, 0x650a7354, 0x766a0abb, 0x81c2c92e, 0x92722c85]
  ++ [0xa2bfe8a1, 0xa81a664b, 0xc24b8b70, 0xc76c51a3, 0xd192e819, 0xd6990624, 0xf40e3585, 0x106aa070]
  ++ [0x19a4c116, 0x1e376c08, 0x2748774c, 0x34b0bcb5, 0x391c0cb3, 0x4ed8aa4a, 0x5b9cca4f, 0x682e6ff3]
  ++ [0x748f82ee, 0x78a5636f, 0x84c87814, 0x8cc70208, 0x90befffa, 0xa4506ceb, 0xbef9a3f7, 0xc67178f2]

def H0 : List Nat :=
  [0x6a09e667, 0xbb67ae85, 0x3c6ef372, 0xa54ff53a, 0x510e527f, 0x9b05688c, 0x1f83d9ab, 0x5be0cd19]

/-- Number of zero bytes inserted by SHA-256 padding. -/
def padZeroCount (len : Nat) : Nat := (120 - ((len + 1) % 64)) % 64

/-- Big-endian 8-byte encoding of the bit length. -/
def lenBytes (len : Nat) : List Nat :=
  (List.range 8).map (fun i => ((len * 8) >>> (8 * (7 - i))) % 256)

def pad (msg : List Nat) : List Nat :=
  msg ++ [0x80] ++ List.replicate (padZeroCount msg.length) 0 ++ lenBytes msg.length

/-- The sixteen big-endian 32-bit words of one 64-byte block. -/
def toWords (block : List Nat) : List Nat :=
  (List.range 16).map (fun i =>
    (block.getD (4 * i) 0) * 0x1000000 + (block.getD (4 * i + 1) 0) * 0x10000 +
    (block.getD (4 * i + 2) 0) * 0x100 + block.getD (4 * i + 3) 0)

/-- Message schedule: extends the 16 block words to 64 words. -/
def schedule (w16 : List Nat) : List Nat :=
  (List.range 64).foldl (fun w t =>
    if t < 16 then w ++ [w16.getD t 0]
    else w ++ [add32 (add32 (smallSigma1 (w.getD (t - 2) 0)) (w.getD (t - 7) 0))
                     (add32 (smallSigma0 (w.getD (t - 15) 0)) (w.getD (t - 16) 0))]) []

structure Regs where
  a : Nat
  b : Nat
  c : Nat
  d : Nat
  e : Nat
  f : Nat
  g : Nat
  h : Nat
deriving Repr, DecidableEq

def roundStep (w : List Nat) (s : Regs) (t : Nat) : Regs :=
  let t1 := add32 (add32 (add32 s.h (bigSigma1 s.e)) (add32 (ch s.e s.f s.g) (K.getD t 0)))
                  (w.getD t 0)
  let t2 := add32 (bigSigma0 s.a) (maj s.a s.b s.c)
  { a := add32 t1 t2, b := s.a, c := s.b, d := s.c,
    e := add32 s.d t1, f := s.e, g := s.f, h := s.g }

def compress (h : List Nat) (block : List Nat) : List Nat :=
  let w := schedule (toWords block)
  let s0 : Regs := { a := h.getD 0 0, b := h.getD 1 0, c := h.getD 2 0, d := h.getD 3 0,
                     e := h.getD 4 0, f := h.getD 5 0, g := h.getD 6 0, h := h.getD 7 0 }
  let s := (List.range 64).foldl (roundStep w) s0
  [add32 (h.getD 0 0) s.a, add32 (h.getD 1 0) s.b, add32 (h.getD 2 0) s.c,
   add32 (h.getD 3 0) s.d, add32 (h.getD 4 0) s.e, add32 (h.getD 5 0) s.f,
   add32 (h.getD 6 0) s.g, add32 (h.getD 7 0) s.h]

end SHA256

/-- Splits a list into consecutive chunks of size `n` (the last one may be
shorter), mirroring `iter(lambda: f.read(4096), b"")`. -/
def chunksOf (n : Nat) (l : List α) : List (List α) :=
  if _h : n = 0 then []
  else
    match l with
    | [] => []
    | x :: xs => ((x :: xs).take n) :: chunksOf n ((x :: xs).drop n)
termination_by l.length
decreasing_by
  simp only [List.length_drop, List.length_cons]
  omega

namespace SHA256

def wordBytes (x : Nat) : List Nat :=
  [(x >>> 24) % 256, (x >>> 16) % 256, (x >>> 8) % 256, x % 256]

/-- SHA-256 digest (32 bytes) of a whole byte string. -/
def sha256 (msg : List Nat) : List Nat :=
  ((chunksOf 64 (pad msg)).foldl compress H0).foldr (fun x acc => wordBytes x ++ acc) []

def hexDigits : List Char := "0123456789abcdef".data

def byteHex (b : Nat) : String :=
  String.mk [hexDigits.getD (b / 16) '0', hexDigits.getD (b % 16) '0']

/-- Lower-case hex encoding of the SHA-256 digest (`hexdigest()`). -/
def sha256Hex (msg : List Nat) : String :=
  (sha256 msg).foldl (fun acc b => acc ++ byteHex b) ""

end SHA256

/-! ## hashlib's incremental interface

`hashlib.sha256()` returns a mutable object; `update` appends bytes to the
message being hashed (`m.update(a); m.update(b)` is `m.update(a + b)`), and
`hexdigest` hashes everything fed so far.  The state is therefore modelled
as the accumulated byte string. -/

namespace Hashlib

/-- `hashlib.sha256()`: fresh hash object, nothing fed yet. -/
def sha256_new : List Nat := []

/-- `update`: feed one more chunk. -/
def update (st : List Nat) (chunk : List Nat) : List Nat := st ++ chunk

/-- `hexdigest`: digest of all bytes fed so far. -/
def hexdigest (st : List Nat) : String := SHA256.sha256Hex st

end Hashlib

namespace CopyrightProtector

/-- `CopyrightProtector.calculate_hash`: streams the content in 4096-byte
chunks, feeding each chunk to the hash state, then asks for the hex digest. -/
def calculate_hash (content : List Nat) : String :=
  Hashlib.hexdigest ((chunksOf 4096 content).foldl Hashlib.update Hashlib.sha256_new)

end CopyrightProtector

/-! ## Python strings and strict UTF-8

Python `str` values are sequences of Unicode code points, modelled as
`List Nat`.  `open(path, encoding='utf-8')` decodes the raw bytes strictly
(rejecting malformed sequences, overlong encodings, surrogates and
out-of-range code points) and then applies universal-newline translation. -/

def isCont (b : Nat) : Bool := decide (0x80 ≤ b) && decide (b < 0xC0)

/-- Strict UTF-8 decoding of a byte string to code points; `none` models
`UnicodeDecodeError`. -/
def utf8Decode : List Nat → Option (List Nat)
  | [] => some []
  | b0 :: rest =>
    if b0 < 0x80 then
      match utf8Decode rest with
      | some cs => some (b0 :: cs)
      | none => none
    else if 0xC2 ≤ b0 ∧ b0 ≤ 0xDF then
      match rest with
      | b1 :: rest2 =>
        if isCont b1 then
          match utf8Decode rest2 with
          | some cs => some (((b0 - 0xC0) * 0x40 + (b1 - 0x80)) :: cs)
          | none => none
        else none
      | [] => none
    else if 0xE0 ≤ b0 ∧ b0 ≤ 0xEF then
      match rest with
      | b1 :: b2 :: rest3 =>
        let cp := (b0 - 0xE0) * 0x1000 + (b1 - 0x80) * 0x40 + (b2 - 0x80)
        if isCont b1 ∧ isCont b2 ∧ 0x800 ≤ cp ∧ ¬(0xD800 ≤ cp ∧ cp ≤ 0xDFFF) then
          match utf8Decode rest3 with
          | some cs => some (cp :: cs)
          | none => none
        else none
      | _ => none
    else if 0xF0 ≤ b0 ∧ b0 ≤ 0xF4 then
      match rest with
      | b1 :: b2 :: b3 :: rest4 =>
        let cp := (b0 - 0xF0) * 0x40000 + (b1 - 0x80) * 0x1000 + (b2 - 0x80) * 0x40 + (b3 - 0x80)
        if isCont b1 ∧ isCont b2 ∧ isCont b3 ∧ 0x10000 ≤ cp ∧ cp ≤ 0x10FFFF then
          match utf8Decode rest4 with
          | some cs => some (cp :: cs)
          | none => none
        else none
      | _ => none
    else none

/-- Universal-newline translation applied by Python text mode. -/
def translateNewlines : List Nat → List Nat
  | [] => []
  | 13 :: 10 :: rest => 10 :: translateNewlines rest
  | 13 :: rest => 10 :: translateNewlines rest
  | c :: rest => c :: translateNewlines rest

/-- UTF-8 encoding of one code point (`str.encode('utf-8')`). -/
def utf8EncodeChar (c : Nat) : List Nat :=
  if c < 0x80 then [c]
  else if c < 0x800 then [0xC0 + c / 0x40, 0x80 + c % 0x40]
  else if c < 0x10000 then [0xE0 + c / 0x1000, 0x80 + (c / 0x40) % 0x40, 0x80 + c % 0x40]
  else [0xF0 + c / 0x40000, 0x80 + (c / 0x1000) % 0x40, 0x80 + (c / 0x40) % 0x40, 0x80 + c % 0x40]

def utf8Encode (cps : List Nat) : List Nat := (cps.map utf8EncodeChar).flatten

/-- View of a Lean string as a Python string (code points). -/
def strToPyStr (s : String) : List Nat := s.data.map Char.toNat

/-- `content[-n:]` on a Python string. -/
def lastN (n : Nat) (l : List α) : List α := l.drop (l.length - n)

/-! ## Paths -/

/-- `pathlib.Path(p).name`. -/
def pathName (p : String) : String := (p.splitOn "/").getLastD p

/-- `pathlib.Path(p).stem`. -/
def pathStem (p : String) : String :=
  let n := pathName p
  let parts := n.splitOn "."
  if parts.length ≤ 1 then n
  else if parts.headD "" = "" ∧ parts.length = 2 then n
  else String.intercalate "." parts.dropLast

/-! ## JSON output (model of `json.dump` / `json.dumps`) -/

/-- Four lower-case hex digits, as in the `\uXXXX` escapes of `json`. -/
def hex4 (n : Nat) : String :=
  String.mk [SHA256.hexDigits.getD (n / 0x1000 % 16) '0',
             SHA256.hexDigits.getD (n / 0x100 % 16) '0',
             SHA256.hexDigits.getD (n / 16 % 16) '0',
             SHA256.hexDigits.getD (n % 16) '0']

/-- One character under `json`'s default `ensure_ascii=False` escaping:
backslash, quote and control characters are escaped, everything else is
kept raw. -/
def escapeChar (c : Char) : String :=
  if c = '\\' then "\\\\"
  else if c = '"' then "\\\""
  else if c = '\n' then "\\n"
  else if c = '\t' then "\\t"
  else if c = '\r' then "\\r"
  else if c.toNat = 8 then "\\b"
  else if c.toNat = 12 then "\\f"
  else if c.toNat < 0x20 then "\\u" ++ hex4 c.toNat
  else String.mk [c]

/-- One character under `json`'s `ensure_ascii=True` escaping (the default
of `json.dumps`): everything outside printable ASCII becomes `\uXXXX`,
non-BMP code points as a surrogate pair. -/
def asciiEscapeChar (c : Char) : String :=
  if c = '\\' then "\\\\"
  else if c = '"' then "\\\""
  else if c = '\n' then "\\n"
  else if c = '\t' then "\\t"
  else if c = '\r' then "\\r"
  else if c.toNat = 8 then "\\b"
  else if c.toNat = 12 then "\\f"
  else if 0x20 ≤ c.toNat ∧ c.toNat ≤ 0x7e then String.mk [c]
  else if c.toNat < 0x10000 then "\\u" ++ hex4 c.toNat
  else
    "\\u" ++ hex4 (0xD800 + (c.toNat - 0x10000) / 0x400) ++
    "\\u" ++ hex4 (0xDC00 + (c.toNat - 0x10000) % 0x400)

def jsonEscape (s : String) : String :=
  s.data.foldl (fun acc c => acc ++ escapeChar c) ""

def jsonStr (s : String) : String := "\"" ++ jsonEscape s ++ "\""

/-- String literal under `ensure_ascii=True`. -/
def jsonStrAscii (s : String) : String :=
  "\"" ++ s.data.foldl (fun acc c => acc ++ asciiEscapeChar c) "" ++ "\""

/-- Compact object with `json`'s default separators `', '` and `': '`
(`json.dumps` without `indent`). -/
def jsonObj (fields : List (String × String)) : String :=
  "\x7b" ++ String.intercalate ", " (fields.map (fun kv => jsonStr kv.1 ++ ": " ++ kv.2)) ++ "\x7d"

def jsonArr (xs : List String) : String :=
  "[" ++ String.intercalate ", " xs ++ "]"

def sp (n : Nat) : String := String.mk (List.replicate n ' ')

/-- Object as rendered by `json.dump(..., indent=2)`: keys on their own
lines indented by `n` spaces, item separator `','` + newline, closing brace
indented by `n - 2`; an empty object stays inline. -/
def dumpObjAt (n : Nat) (fields : List (String × String)) : String :=
  match fields with
  | [] => "\x7b\x7d"
  | _ => "\x7b\n" ++
      String.intercalate ",\n" (fields.map (fun kv => sp n ++ jsonStr kv.1 ++ ": " ++ kv.2)) ++
      "\n" ++ sp (n - 2) ++ "\x7d"

/-- Array as rendered by `json.dump(..., indent=2)`. -/
def dumpArrAt (n : Nat) (xs : List String) : String :=
  match xs with
  | [] => "[]"
  | _ => "[\n" ++ String.intercalate ",\n" (xs.map (fun x => sp n ++ x)) ++
      "\n" ++ sp (n - 2) ++ "]"

def dumpOpt (f : α → String) : Option α → String
  | none => "null"
  | some x => f x

/-! ## Data model -/

/-- The dict returned by `create_timestamp_opentimestamps` and stored as
`entry["proofs"]["blockchain"]` (the AnchorReceipt). -/
structure BlockchainProof where
  service : String
  blockchain : String
  ots_file : String
  verification_url : String
  status : String
  note : String
deriving Repr, DecidableEq, Inhabited

/-- The dict returned by `create_local_proof` and stored as
`entry["proofs"]["local"]` (the LocalProof reference). -/
structure LocalProofRef where
  proof_file : String
  proof_hash : String
deriving Repr, DecidableEq, Inhabited

/-- One element of `registry["files"]`. -/
structure RegistryEntry where
  id : Nat
  file_name : String
  original_path : String
  hash : String
  hash_algorithm : String
  registered_at : String
  project : Option String
  client : Option String
  description : Option String
  proofs_local : Option LocalProofRef
  proofs_blockchain : Option BlockchainProof
  status : String
deriving Repr, DecidableEq, Inhabited

/-- The registry ledger: `{"files": [...], "metadata": {"created": ..,
"updated": ..}}`. -/
structure Registry where
  files : List RegistryEntry
  metadata_created : String
  metadata_updated : Option String
deriving Repr, DecidableEq, Inhabited

/-- Python exceptions that the embedded operations can surface. -/
inductive PyError where
  | fileNotFoundError (msg : String)
  | unicodeDecodeError (msg : String)
  | valueError (msg : String)
  | urlError (msg : String)
  | attributeError (msg : String)
deriving Repr, DecidableEq

/-- Observable side effects of the operations, in program order. -/
inductive WriteEvent where
  | anchorSubmit (digest : String)
  | otsWrite (path : String)
  | proofWrite (path : String)
  | copyFile (src : String) (dest : String)
  | summaryWrite (path : String)
  | registryPersist
deriving Repr, DecidableEq

/-- External world: filesystem contents (raw bytes by path), the network
(`urllib.request.urlopen`, whose failures model `URLError`/any exception),
and the clock (`datetime.now()`). -/
structure Env where
  fs : String → Option (List Nat)
  urlopen : String → Except PyError (List Nat)
  now_iso : String
  now_unix : Int

/-- State of one `CopyrightProtector` instance: its storage directory and
the in-memory registry loaded from `registry.json`. -/
structure CopyrightProtector where
  base_dir : String
  registry : Registry
deriving Repr, DecidableEq

namespace CopyrightProtector

def proofs_dir (self : CopyrightProtector) : String := self.base_dir ++ "/proofs"

def registry_file (self : CopyrightProtector) : String := self.base_dir ++ "/registry.json"

/-- `CopyrightProtector.calculate_content_hash`: SHA-256 hex digest of the
UTF-8 encoding of a Python string. -/
def calculate_content_hash (content : List Nat) : String :=
  SHA256.sha256Hex (utf8Encode content)

/-- The proof document built by `create_local_proof` (field names as in the
source dict). -/
structure ProofDoc where
  version : String
  type : String
  author : String
  company : String
  location : String
  website : String
  since : Nat
  file_name : String
  original_path : String
  size_bytes : Nat
  hash_algorithm : String
  hash : String
  ts_created : String
  ts_timezone : String
  ts_unix : Int
  first_100_chars_hash : String
  last_100_chars_hash : String
  total_lines : Nat
  total_chars : Nat
deriving Repr, DecidableEq

/-- `json.dumps(proof, sort_keys=True)`: keys at every level in sorted
order, compact separators, `ensure_ascii=True` (the default) escaping of
every string value. -/
def dumpsProofSorted (p : ProofDoc) : String :=
  jsonObj
    [("author", jsonStrAscii p.author),
     ("author_details", jsonObj
       [("company", jsonStrAscii p.company), ("location", jsonStrAscii p.location),
        ("since", toString p.since), ("website", jsonStrAscii p.website)]),
     ("content_fingerprint", jsonObj
       [("first_100_chars_hash", jsonStrAscii p.first_100_chars_hash),
        ("last_100_chars_hash", jsonStrAscii p.last_100_chars_hash),
        ("total_chars", toString p.total_chars),
        ("total_lines", toString p.total_lines)]),
     ("file", jsonObj
       [("hash", jsonStrAscii p.hash), ("hash_algorithm", jsonStrAscii p.hash_algorithm),
        ("name", jsonStrAscii p.file_name), ("original_path", jsonStrAscii p.original_path),
        ("size_bytes", toString p.size_bytes)]),
     ("timestamp", jsonObj
       [("created", jsonStrAscii p.ts_created), ("timezone", jsonStrAscii p.ts_timezone),
        ("unix", toString p.ts_unix)]),
     ("type", jsonStrAscii p.type),
     ("version", jsonStrAscii p.version)]

/-- `CopyrightProtector.create_local_proof`: reopens the source file in
UTF-8 text mode, builds the proof document, writes it under the proofs
directory and returns its locator and self-hash.  A file whose bytes do not
decode as UTF-8 raises `UnicodeDecodeError`. -/
def create_local_proof (env : Env) (self : CopyrightProtector) (file_path : String)
    (file_hash : String) : Except PyError LocalProofRef × List WriteEvent :=
  match env.fs file_path with
  | none => (.error (.fileNotFoundError file_path), [])
  | some raw =>
    match utf8Decode raw with
    | none => (.error (.unicodeDecodeError file_path), [])
    | some decoded =>
      let content := translateNewlines decoded
      let proof : ProofDoc :=
        { version := "1.0", type := "copyright_proof", author := "Artvision.pro",
          company := "Маркетинговое агентство Artvision",
          location := "Санкт-Петербург, Москва",
          website := "https://artvision.pro", since := 2007,
          file_name := pathName file_path, original_path := file_path,
          size_bytes := raw.length, hash_algorithm := "SHA-256", hash := file_hash,
          ts_created := env.now_iso, ts_timezone := "Europe/Moscow", ts_unix := env.now_unix,
          first_100_chars_hash := calculate_content_hash (content.take 100),
          last_100_chars_hash := calculate_content_hash (lastN 100 content),
          total_lines := content.count 10 + 1, total_chars := content.length }
      let proof_path := self.proofs_dir ++ "/" ++ pathStem file_path ++ "_" ++
        (file_hash.take 16) ++ "_proof.json"
      (.ok { proof_file := proof_path,
             proof_hash := calculate_content_hash (strToPyStr (dumpsProofSorted proof)) },
       [.proofWrite proof_path])

/-- `CopyrightProtector.create_timestamp_opentimestamps`: submits the digest
to the OpenTimestamps endpoint; on success stores the raw response as an
`.ots` artifact and returns the receipt dict, and on any exception returns
`None`. -/
def create_timestamp_opentimestamps (env : Env) (self : CopyrightProtector)
    (file_hash : String) (file_name : String) : Option BlockchainProof × List WriteEvent :=
  match env.urlopen file_hash with
  | .error _ => (none, [.anchorSubmit file_hash])
  | .ok _ots_data =>
    let ots_path := self.proofs_dir ++ "/" ++ file_name ++ "_" ++ (file_hash.take 16) ++ ".ots"
    (some { service := "OpenTimestamps", blockchain := "Bitcoin", ots_file := ots_path,
            verification_url := "https://opentimestamps.org/",
            status := "pending_confirmation",
            note := "Подтверждение в блокчейне Bitcoin занимает ~2 часа" },
     [.anchorSubmit file_hash, .otsWrite ots_path])

/-- `CopyrightProtector._save_registry`: stamps `metadata["updated"]` and
rewrites `registry.json` in place. -/
def save_registry (env : Env) (reg : Registry) : Registry :=
  { reg with metadata_updated := some env.now_iso }

/-- The LocalProof reference dict as it appears inside an entry of the
indented ledger (its keys sit at depth 5, i.e. 10 spaces). -/
def dumpLocalProof (lp : LocalProofRef) : String :=
  dumpObjAt 10 [("proof_file", jsonStr lp.proof_file), ("proof_hash", jsonStr lp.proof_hash)]

/-- The AnchorReceipt dict inside an entry of the indented ledger. -/
def dumpBlockchainProof (bp : BlockchainProof) : String :=
  dumpObjAt 10 [("service", jsonStr bp.service), ("blockchain", jsonStr bp.blockchain),
                ("ots_file", jsonStr bp.ots_file),
                ("verification_url", jsonStr bp.verification_url),
                ("status", jsonStr bp.status), ("note", jsonStr bp.note)]

/-- One element of the `files` array of the indented ledger. -/
def dumpEntry (e : RegistryEntry) : String :=
  dumpObjAt 6
    [("id", toString e.id), ("file_name", jsonStr e.file_name),
     ("original_path", jsonStr e.original_path), ("hash", jsonStr e.hash),
     ("hash_algorithm", jsonStr e.hash_algorithm),
     ("registered_at", jsonStr e.registered_at),
     ("project", dumpOpt jsonStr e.project), ("client", dumpOpt jsonStr e.client),
     ("description", dumpOpt jsonStr e.description),
     ("proofs", dumpObjAt 8 [("local", dumpOpt dumpLocalProof e.proofs_local),
                             ("blockchain", dumpOpt dumpBlockchainProof e.proofs_blockchain)]),
     ("status", jsonStr e.status)]

/-- Serialization of the whole ledger as written by
`json.dump(self.registry, f, ensure_ascii=False, indent=2)` in
`_save_registry`. -/
def dumpRegistry (reg : Registry) : String :=
  dumpObjAt 2 [("files", dumpArrAt 4 (reg.files.map dumpEntry)),
               ("metadata", dumpObjAt 4 ([("created", jsonStr reg.metadata_created)] ++
                 (match reg.metadata_updated with
                  | none => []
                  | some u => [("updated", jsonStr u)])))]

/-- The successive on-disk contents of `registry.json` during
`_save_registry`: the old ledger, then the empty file left by
`open(..., 'w')` truncating the target, then the dumped ledger. -/
def save_registry_disk_trace (env : Env) (oldDisk : String) (reg : Registry) : List String :=
  [oldDisk, "", dumpRegistry (save_registry env reg)]

/-- `CopyrightProtector.protect_file`.  Returns the Python result
(entry or raised exception), the state of the protector afterwards, and the
trace of writes performed. -/
def protect_file (env : Env) (self : CopyrightProtector) (file_path : String)
    (project_name : Option String) (client_name : Option String)
    (description : Option String) :
    Except PyError RegistryEntry × CopyrightProtector × List WriteEvent :=
  match env.fs file_path with
  | none => (.error (.fileNotFoundError file_path), self, [])
  | some content =>
    let file_hash := calculate_hash content
    match self.registry.files.find? (fun e => e.hash == file_hash) with
    | some entry => (.ok entry, self, [])
    | none =>
      match create_local_proof env self file_path file_hash with
      | (.error e, w1) => (.error e, self, w1)
      | (.ok local_proof, w1) =>
        let bpw := create_timestamp_opentimestamps env self file_hash (pathStem file_path)
        let entry : RegistryEntry :=
          { id := self.registry.files.length + 1,
            file_name := pathName file_path,
            original_path := file_path,
            hash := file_hash,
            hash_algorithm := "SHA-256",
            registered_at := env.now_iso,
            project := project_name, client := client_name, description := description,
            proofs_local := some local_proof,
            proofs_blockchain := bpw.1,
            status := "protected" }
        let reg := save_registry env
          { self.registry with files := self.registry.files ++ [entry] }
        (.ok entry, { self with registry := reg },
         w1 ++ bpw.2 ++ [.registryPersist])

/-- Result of `verify_file`. -/
inductive VerifyResult where
  | verified (entry : RegistryEntry)
  | notVerified (current_hash : String)
deriving Repr, DecidableEq

/-- `CopyrightProtector.verify_file`: recomputes the fingerprint and looks
it up in the registry.  Pure: touches no state and performs no writes. -/
def verify_file (env : Env) (self : CopyrightProtector) (file_path : String) :
    Except PyError VerifyResult :=
  match env.fs file_path with
  | none => .error (.fileNotFoundError file_path)
  | some content =>
    let file_hash := calculate_hash content
    match self.registry.files.find? (fun e => e.hash == file_hash) with
    | some entry => .ok (.verified entry)
    | none => .ok (.notVerified file_hash)

/-- `CopyrightProtector.export_proof_package`: unknown id raises
`ValueError`.  For a known id it evaluates
`entry['proofs'].get('local', {}).get('proof_file')` and
`entry['proofs'].get('blockchain', {}).get('ots_file')`: the entries
written by `protect_file` always carry both keys, so `dict.get` returns the
stored value even when that value is `None` (the `{}` defaults are dead),
and `None.get(...)` then raises `AttributeError` — after the local-proof
copy and before the SUMMARY document is written.  A proof reference that is
a dict is copied when its locator is truthy.  Pure in the registry: returns
only the Python outcome and the writes performed. -/
def export_proof_package (self : CopyrightProtector) (file_id : Nat) :
    Except PyError String × List WriteEvent :=
  match self.registry.files.find? (fun e => e.id == file_id) with
  | none => (.error (.valueError ("Файл с ID " ++ toString file_id ++ " не найден")), [])
  | some entry =>
    let package_dir := self.proofs_dir ++ "/packages/copyright_proof_" ++
      entry.file_name ++ "_" ++ (entry.hash.take 8)
    match entry.proofs_local with
    | none => (.error (.attributeError "NoneType object has no attribute get"), [])
    | some lp =>
      let copyLocal :=
        if lp.proof_file ≠ "" then [WriteEvent.copyFile lp.proof_file package_dir] else []
      match entry.proofs_blockchain with
      | none => (.error (.attributeError "NoneType object has no attribute get"), copyLocal)
      | some bc =>
        let copyOts :=
          if bc.ots_file ≠ "" then [WriteEvent.copyFile bc.ots_file package_dir] else []
        (.ok package_dir,
         copyLocal ++ copyOts ++ [.summaryWrite (package_dir ++ "/SUMMARY.json")])

end CopyrightProtector

/-! ## `retry_blockchain.py` -/

/-- The inner update of `retry_pending_files`: find the first registry entry
whose id matches and set its `proofs["blockchain"]` field. -/
def update_blockchain_first (files : List RegistryEntry) (id : Nat)
    (result : BlockchainProof) : List RegistryEntry :=
  match files with
  | [] => []
  | e :: rest =>
    if e.id == id then { e with proofs_blockchain := some result } :: rest
    else e :: update_blockchain_first rest id result

/-- The `for entry in pending` loop of `retry_pending_files`. -/
def retry_loop (env : Env) (self : CopyrightProtector) (todo : List RegistryEntry)
    (files : List RegistryEntry) : List RegistryEntry × List WriteEvent :=
  match todo with
  | [] => (files, [])
  | entry :: rest =>
    let bpw := CopyrightProtector.create_timestamp_opentimestamps env self entry.hash
      (pathStem entry.file_name)
    let files' :=
      match bpw.1 with
      | some result => update_blockchain_first files entry.id result
      | none => files
    let rec_result := retry_loop env self rest files'
    (rec_result.1, bpw.2 ++ rec_result.2)

/-- `retry_pending_files`: collects the entries with an absent blockchain
proof, retries the anchor submission for each, and saves the registry once
at the end — unless nothing was pending, in which case it returns without
saving. -/
def retry_pending_files (env : Env) (self : CopyrightProtector) :
    CopyrightProtector × List WriteEvent :=
  let pending := self.registry.files.filter (fun e => e.proofs_blockchain == none)
  if pending.isEmpty then (self, [])
  else
    let r := retry_loop env self pending self.registry.files
    let reg := CopyrightProtector.save_registry env { self.registry with files := r.1 }
    ({ self with registry := reg }, r.2 ++ [.registryPersist])

/-- Registry states reachable from a freshly created (empty) registry by
the provided operations.  `verify_file` and `export_proof_package` do not
return a state; `protect_file` and `retry_pending_files` do. -/
inductive Reachable : CopyrightProtector → Prop where
  | init (base_dir created : String) :
      Reachable { base_dir := base_dir,
                  registry := { files := [], metadata_created := created,
                                metadata_updated := none } }
  | protect (env : Env) (st : CopyrightProtector) (path : String)
      (pn cn d : Option String) : Reachable st →
      Reachable (CopyrightProtector.protect_file env st path pn cn d).2.1
  | retry (env : Env) (st : CopyrightProtector) : Reachable st →
      Reachable (retry_pending_files env st).1

/-- Projects the digest out of an anchor-submission event. -/
def submitDigest : WriteEvent → Option String
  | .anchorSubmit d => some d
  | _ => none

/-- A necessary syntactic condition for the on-disk ledger to be a valid
JSON object document. -/
def isValidLedger (s : String) : Bool :=
  (s.data.head? == some '\x7b') && (s.data.getLast? == some '\x7d')

/-! ## Concrete fixtures used by the witnesses -/

def sampleContent : List Nat := [104, 105]

def regEmpty : Registry := { files := [], metadata_created := "t0", metadata_updated := none }

def entryA : RegistryEntry :=
  { id := 1, file_name := "a.html", original_path := "/srv/a.html",
    hash := CopyrightProtector.calculate_hash sampleContent,
    hash_algorithm := "SHA-256", registered_at := "t0",
    project := none, client := none, description := none,
    proofs_local := some { proof_file := "/base/proofs/a_0123_proof.json", proof_hash := "ph" },
    proofs_blockchain := none, status := "protected" }

def bpA : BlockchainProof :=
  { service := "OpenTimestamps", blockchain := "Bitcoin", ots_file := "/base/proofs/b_0123.ots",
    verification_url := "https://opentimestamps.org/", status := "pending_confirmation",
    note := "n" }

def entryB : RegistryEntry :=
  { id := 2, file_name := "b.html", original_path := "/srv/b.html", hash := "h2",
    hash_algorithm := "SHA-256", registered_at := "t0",
    project := none, client := none, description := none,
    proofs_local := some { proof_file := "/base/proofs/b_0123_proof.json", proof_hash := "ph2" },
    proofs_blockchain := some bpA, status := "protected" }

def stA : CopyrightProtector := { base_dir := "/base", registry := { regEmpty with files := [entryA] } }

def stB : CopyrightProtector := { base_dir := "/base", registry := regEmpty }

def stAnchored : CopyrightProtector :=
  { base_dir := "/base", registry := { regEmpty with files := [entryB] } }

/-- Environment whose anchor endpoint always fails. -/
def envFail : Env :=
  { fs := fun p => if p = "/srv/a.html" then some sampleContent else none,
    urlopen := fun _ => .error (.urlError "unreachable"),
    now_iso := "t1", now_unix := 1 }

/-- Environment whose anchor endpoint always succeeds. -/
def envOk : Env :=
  { fs := fun p => if p = "/srv/a.html" then some sampleContent else none,
    urlopen := fun _ => .ok [1, 2, 3],
    now_iso := "t1", now_unix := 1 }

/-- Environment holding one file that is not valid UTF-8. -/
def envBad : Env :=
  { fs := fun p => if p = "/srv/bad.bin" then some [255] else none,
    urlopen := fun _ => .error (.urlError "unreachable"),
    now_iso := "t1", now_unix := 1 }

/-! ## Theorems -/

theorem chunksOf_join (n : Nat) (hn : 0 < n) (l : List α) : (chunksOf n l).flatten = l := by
  match l with
  | [] =>
    rw [chunksOf.eq_def]
    split
    · rfl
    · rfl
  | x :: xs =>
    rw [chunksOf.eq_def]
    split
    · omega
    · have ih := chunksOf_join n hn ((x :: xs).drop n)
      simp only [List.flatten_cons, ih, List.take_append_drop]
termination_by l.length
decreasing_by
  simp only [List.length_drop, List.length_cons]
  omega

theorem foldl_update_eq_join (ls : List (List Nat)) (acc : List Nat) :
    ls.foldl Hashlib.update acc = acc ++ ls.flatten := by
  induction ls generalizing acc with
  | nil => simp
  | cons x xs ih => simp [Hashlib.update, ih, List.append_assoc]

/-- **C5** Chunked hashing refinement: the fingerprint obtained by streaming
the file content in fixed-size 4096-byte chunks through the incremental
SHA-256 state (`calculate_hash`) equals the SHA-256 hex digest of the whole
byte content hashed at once — chunking never changes the resulting
fingerprint. -/
theorem calculate_hash_eq_whole (content : List Nat) :
    CopyrightProtector.calculate_hash content = SHA256.sha256Hex content := by
  unfold CopyrightProtector.calculate_hash Hashlib.hexdigest Hashlib.sha256_new
  rw [foldl_update_eq_join, chunksOf_join 4096 (by omega)]
  rfl

/-! ### Protection: idempotence, anchor tolerance, UTF-8 precondition -/

theorem protect_file_found (env : Env) (st : CopyrightProtector) (path : String)
    (content : List Nat) (pn cn d : Option String) (entry : RegistryEntry)
    (henv : env.fs path = some content)
    (hfind : st.registry.files.find?
      (fun e => e.hash == CopyrightProtector.calculate_hash content) = some entry) :
    CopyrightProtector.protect_file env st path pn cn d = (.ok entry, st, []) := by
  simp only [CopyrightProtector.protect_file, henv, hfind]

/-- **C1** Idempotent protection: when the fingerprint of the file's content
already equals the `hash` of a registry entry, `protect_file` returns that
entry with the protector state unchanged (no append, registry length
unchanged) and an empty write trace (no proof written, no anchor
submission, no persist); and a second `protect_file` on unmodified content
after any successful one returns the same entry, again without writes. -/
theorem c1_protect_idempotent :
    (∀ (env : Env) (st : CopyrightProtector) (path : String) (content : List Nat)
       (pn cn d : Option String) (entry : RegistryEntry),
       env.fs path = some content →
       st.registry.files.find?
         (fun e => e.hash == CopyrightProtector.calculate_hash content) = some entry →
       CopyrightProtector.protect_file env st path pn cn d = (.ok entry, st, [])) ∧
    (∀ (env : Env) (st st' : CopyrightProtector) (path : String) (content : List Nat)
       (pn cn d pn' cn' d' : Option String) (e : RegistryEntry) (w : List WriteEvent),
       env.fs path = some content →
       CopyrightProtector.protect_file env st path pn cn d = (.ok e, st', w) →
       CopyrightProtector.protect_file env st' path pn' cn' d' = (.ok e, st', [])) := by
  constructor
  · intro env st path content pn cn d entry henv hfind
    exact protect_file_found env st path content pn cn d entry henv hfind
  · intro env st st' path content pn cn d pn' cn' d' e w henv hcall
    rcases hfind : st.registry.files.find?
      (fun x => x.hash == CopyrightProtector.calculate_hash content) with _ | entry0
    · rcases hlp : CopyrightProtector.create_local_proof env st path
        (CopyrightProtector.calculate_hash content) with ⟨res, w1⟩
      simp only [CopyrightProtector.protect_file, henv, hfind, hlp] at hcall
      cases res with
      | error err => simp at hcall
      | ok lp =>
        simp only [Prod.mk.injEq, Except.ok.injEq] at hcall
        obtain ⟨he, hst', _⟩ := hcall
        have hfind2 : st'.registry.files.find?
            (fun x => x.hash == CopyrightProtector.calculate_hash content) = some e := by
          rw [← hst', ← he]
          simp [CopyrightProtector.save_registry, List.find?_append, hfind, List.find?]
        exact protect_file_found env st' path content pn' cn' d' e henv hfind2
    · simp only [CopyrightProtector.protect_file, henv, hfind] at hcall
      simp only [Prod.mk.injEq, Except.ok.injEq] at hcall
      obtain ⟨he, hst', _⟩ := hcall
      rw [← hst']
      exact protect_file_found env st path content pn' cn' d' e henv (he ▸ hfind)

theorem c1_witness :
    CopyrightProtector.protect_file envFail stA "/srv/a.html" none none none =
      (.ok entryA, stA, []) :=
  c1_protect_idempotent.1 envFail stA "/srv/a.html" sampleContent none none none entryA
    rfl (by simp [stA, regEmpty, entryA, List.find?])

/-- **C2** Anchor-absent tolerance: when the anchor submission fails with
any exception, `create_timestamp_opentimestamps` returns `none` (it does
not raise), and `protect_file` still succeeds, producing an entry whose
blockchain proof is absent and whose status is `"protected"`. -/
theorem c2_anchor_absent_tolerance :
    (∀ (env : Env) (st : CopyrightProtector) (h nm : String) (err : PyError),
       env.urlopen h = .error err →
       CopyrightProtector.create_timestamp_opentimestamps env st h nm =
         (none, [WriteEvent.anchorSubmit h])) ∧
    (∀ (env : Env) (st : CopyrightProtector) (path : String) (content : List Nat)
       (pn cn d : Option String) (err : PyError),
       env.fs path = some content →
       env.urlopen (CopyrightProtector.calculate_hash content) = .error err →
       st.registry.files.find?
         (fun e => e.hash == CopyrightProtector.calculate_hash content) = none →
       (utf8Decode content).isSome →
       ∃ entry st' ws,
         CopyrightProtector.protect_file env st path pn cn d = (.ok entry, st', ws) ∧
         entry.proofs_blockchain = none ∧ entry.status = "protected") := by
  constructor
  · intro env st h nm err hurl
    simp only [CopyrightProtector.create_timestamp_opentimestamps, hurl]
  · intro env st path content pn cn d err henv hurl hfind hdec
    obtain ⟨dec, hd⟩ := Option.isSome_iff_exists.mp hdec
    simp only [CopyrightProtector.protect_file, henv, hfind,
      CopyrightProtector.create_local_proof, hd,
      CopyrightProtector.create_timestamp_opentimestamps, hurl]
    exact ⟨_, _, _, rfl, rfl, rfl⟩

theorem c2_witness :
    ∃ entry st' ws,
      CopyrightProtector.protect_file envFail stB "/srv/a.html" none none none =
        (.ok entry, st', ws) ∧
      entry.proofs_blockchain = none ∧ entry.status = "protected" :=
  c2_anchor_absent_tolerance.2 envFail stB "/srv/a.html" sampleContent none none none
    (.urlError "unreachable") rfl rfl (by simp [stB, regEmpty]) (by decide)

/-- **C4** Verify correctness without mutation: `verify_file` recomputes the
fingerprint of the file's content and only reads the registry (the embedded
operation is a pure function of the state: it returns no new state and no
write events).  If some entry's hash equals the fingerprint, it answers
verified with such an entry; otherwise it answers not-verified carrying the
recomputed fingerprint, which differs from every entry's hash. -/
theorem c4_verify_no_mutation :
    ∀ (env : Env) (st : CopyrightProtector) (path : String) (content : List Nat),
      env.fs path = some content →
      ((∃ e ∈ st.registry.files, e.hash = CopyrightProtector.calculate_hash content) →
        ∃ entry, CopyrightProtector.verify_file env st path = .ok (.verified entry) ∧
          entry ∈ st.registry.files ∧
          entry.hash = CopyrightProtector.calculate_hash content) ∧
      ((∀ e ∈ st.registry.files, e.hash ≠ CopyrightProtector.calculate_hash content) →
        CopyrightProtector.verify_file env st path =
          .ok (.notVerified (CopyrightProtector.calculate_hash content))) := by
  intro env st path content henv
  constructor
  · intro hex
    obtain ⟨e0, he0, hh0⟩ := hex
    have hsome : (st.registry.files.find?
        (fun e => e.hash == CopyrightProtector.calculate_hash content)).isSome := by
      rw [List.find?_isSome]
      exact ⟨e0, he0, by simp [hh0]⟩
    obtain ⟨entry, hfind⟩ := Option.isSome_iff_exists.mp hsome
    refine ⟨entry, ?_, List.mem_of_find?_eq_some hfind, ?_⟩
    · simp only [CopyrightProtector.verify_file, henv, hfind]
    · have := List.find?_some hfind
      exact eq_of_beq this
  · intro hall
    have hfind : st.registry.files.find?
        (fun e => e.hash == CopyrightProtector.calculate_hash content) = none := by
      rw [List.find?_eq_none]
      intro x hx
      simp [hall x hx]
    simp only [CopyrightProtector.verify_file, henv, hfind]

theorem c4_witness :
    ∃ entry, CopyrightProtector.verify_file envFail stA "/srv/a.html" =
        .ok (.verified entry) ∧
      entry ∈ stA.registry.files ∧
      entry.hash = CopyrightProtector.calculate_hash sampleContent :=
  (c4_verify_no_mutation envFail stA "/srv/a.html" sampleContent rfl).1
    ⟨entryA, by simp [stA, regEmpty], rfl⟩

/-- **C10** Implicit UTF-8 precondition: for an existing, not yet registered
file whose bytes do not decode as UTF-8, `protect_file` raises
`UnicodeDecodeError` while building the local proof (the source is reopened
in text mode), before any append: it returns the error with the protector
state unchanged and an empty write trace. -/
theorem c10_utf8_precondition :
    ∀ (env : Env) (st : CopyrightProtector) (path : String) (content : List Nat)
      (pn cn d : Option String),
      env.fs path = some content →
      utf8Decode content = none →
      st.registry.files.find?
        (fun e => e.hash == CopyrightProtector.calculate_hash content) = none →
      CopyrightProtector.protect_file env st path pn cn d =
        (.error (.unicodeDecodeError path), st, []) := by
  intro env st path content pn cn d henv hdec hfind
  simp only [CopyrightProtector.protect_file, henv, hfind,
    CopyrightProtector.create_local_proof, hdec]

theorem c10_witness :
    CopyrightProtector.protect_file envBad stB "/srv/bad.bin" none none none =
      (.error (.unicodeDecodeError "/srv/bad.bin"), stB, []) :=
  c10_utf8_precondition envBad stB "/srv/bad.bin" [255] none none none rfl
    (by decide) (by simp [stB, regEmpty])

/-! ### Export packages -/

/-- **C9** is contradicted by the code.  The claim says every known id
produces a package containing the LocalProof artifact, the anchor artifact
when present, and a summary, but for an entry protected while anchoring was
unavailable — `proofs["blockchain"]` stored as `None`, the spec's normal
pending state — `export_proof_package` crashes: the key `"blockchain"` is
present, so `entry['proofs'].get('blockchain', {})` returns `None` and
`None.get('ots_file')` raises `AttributeError`, after the LocalProof was
copied and before SUMMARY.json is written.  The `{}` defaults (and the
spec) show the intended behavior is to skip the absent receipt, so this is
a bug in the code, evaluated here at the concrete failing input. -/
theorem c9_export_crashes_on_pending :
    ∃ pkg,
      CopyrightProtector.export_proof_package stA 1 =
        (.error (.attributeError "NoneType object has no attribute get"),
         [WriteEvent.copyFile "/base/proofs/a_0123_proof.json" pkg]) :=
  ⟨_, rfl⟩

/-! ### Persistence is not atomic -/

theorem jsonObj_ne_empty (fields : List (String × String)) : jsonObj fields ≠ "" := by
  intro h
  unfold jsonObj at h
  have hlen := congrArg String.length h
  rw [String.length_append, String.length_append] at hlen
  have h1 : ("\x7b" : String).length = 1 := rfl
  have h2 : ("\x7d" : String).length = 1 := rfl
  have h0 : ("" : String).length = 0 := rfl
  rw [h1, h2, h0] at hlen
  omega

theorem dumpObjAt_ne_empty (n : Nat) (fields : List (String × String)) :
    dumpObjAt n fields ≠ "" := by
  match fields with
  | [] => exact (by decide : ("\x7b\x7d" : String) ≠ "")
  | f :: rest =>
    unfold dumpObjAt
    intro h
    have hlen := congrArg String.length h
    simp only [String.length_append] at hlen
    have h1 : ("\x7b\n" : String).length = 2 := rfl
    have h2 : ("\n" : String).length = 1 := rfl
    have h3 : ("\x7d" : String).length = 1 := rfl
    have h0 : ("" : String).length = 0 := rfl
    rw [h1, h2, h3, h0] at hlen
    omega

/-- **C8** is FALSE of the code: `_save_registry` opens `registry.json`
with mode `'w'`, which truncates the target in place before `json.dump`
writes the new contents.  The mid-write on-disk state (the empty file) is
neither the old ledger nor the new dump, refuting atomicity at a concrete
old ledger and registry. -/
theorem c8_counterexample :
    ¬ (∀ s ∈ CopyrightProtector.save_registry_disk_trace envFail "\x7b\x7d" regEmpty,
        s = "\x7b\x7d" ∨
        s = CopyrightProtector.dumpRegistry
              (CopyrightProtector.save_registry envFail regEmpty)) := by
  intro h
  have hm : "" ∈ CopyrightProtector.save_registry_disk_trace envFail "\x7b\x7d" regEmpty := by
    simp [CopyrightProtector.save_registry_disk_trace]
  rcases h "" hm with h1 | h2
  · exact absurd h1 (by decide)
  · refine absurd h2.symm ?_
    simp only [CopyrightProtector.dumpRegistry]
    exact dumpObjAt_ne_empty 2 _

/-- **C8 (amended)** `_save_registry` rewrites the ledger in place, not
atomically: for every valid previous ledger, the write sequence passes
through an intermediate on-disk state (the truncated, empty file) that is
syntactically invalid and differs both from the old ledger and from the new
serialized ledger. -/
theorem c8_save_registry_not_atomic :
    ∀ (env : Env) (oldDisk : String) (reg : Registry),
      isValidLedger oldDisk = true →
      ∃ s ∈ CopyrightProtector.save_registry_disk_trace env oldDisk reg,
        isValidLedger s = false ∧ s ≠ oldDisk ∧
        s ≠ CopyrightProtector.dumpRegistry (CopyrightProtector.save_registry env reg) := by
  intro env oldDisk reg hvalid
  refine ⟨"", by simp [CopyrightProtector.save_registry_disk_trace], by decide, ?_, ?_⟩
  · intro he
    rw [← he] at hvalid
    exact absurd hvalid (by decide)
  · intro he
    refine absurd he.symm ?_
    simp only [CopyrightProtector.dumpRegistry]
    exact dumpObjAt_ne_empty 2 _

theorem c8_witness :
    ∃ s ∈ CopyrightProtector.save_registry_disk_trace envFail "\x7b\x7d" regEmpty,
      isValidLedger s = false ∧ s ≠ "\x7b\x7d" ∧
      s ≠ CopyrightProtector.dumpRegistry
            (CopyrightProtector.save_registry envFail regEmpty) :=
  c8_save_registry_not_atomic envFail "\x7b\x7d" regEmpty (by decide)

/-! ### Anchor update frame condition -/

theorem update_blockchain_first_map_id (fs : List RegistryEntry) (id : Nat)
    (r : BlockchainProof) :
    (update_blockchain_first fs id r).map RegistryEntry.id = fs.map RegistryEntry.id := by
  induction fs with
  | nil => rfl
  | cons e rest ih =>
    unfold update_blockchain_first
    cases h : (e.id == id) with
    | true => simp [h]
    | false => simp [h, ih]

theorem update_blockchain_first_length (fs : List RegistryEntry) (id : Nat)
    (r : BlockchainProof) :
    (update_blockchain_first fs id r).length = fs.length := by
  have := congrArg List.length (update_blockchain_first_map_id fs id r)
  simpa using this

theorem update_blockchain_first_eq_map (fs : List RegistryEntry) (id : Nat)
    (r : BlockchainProof) (hnd : (fs.map RegistryEntry.id).Nodup) :
    update_blockchain_first fs id r =
      fs.map (fun e => if e.id = id then { e with proofs_blockchain := some r } else e) := by
  induction fs with
  | nil => rfl
  | cons e rest ih =>
    rw [List.map_cons, List.nodup_cons] at hnd
    by_cases hid : e.id = id
    · have hrest : ∀ x ∈ rest,
          (fun e => if e.id = id then { e with proofs_blockchain := some r } else e) x = x := by
        intro x hx
        have hxid : x.id ≠ id := by
          intro hxe
          exact hnd.1 (hid ▸ hxe ▸ List.mem_map_of_mem RegistryEntry.id hx)
        simp [hxid]
      unfold update_blockchain_first
      rw [if_pos (by simp [hid] : (e.id == id) = true), List.map_cons, if_pos hid,
        List.map_congr_left hrest, List.map_id']
    · unfold update_blockchain_first
      rw [if_neg (by simp [hid] : ¬ ((e.id == id) = true)), List.map_cons, if_neg hid,
        ih hnd.2]

theorem getD_map_lt (f : α → β) (l : List α) (j : Nat) (h : j < l.length)
    (d : β) (d' : α) : (l.map f).getD j d = f (l.getD j d') := by
  rw [List.getD_eq_getElem?_getD, List.getD_eq_getElem?_getD, List.getElem?_map,
    List.getElem?_eq_getElem h]
  rfl

/-- **C7** Anchor update frame condition: under the registry invariant of
pairwise-distinct ids, the in-place update performed by the retry pass
replaces only the `proofs["blockchain"]` field of the entry whose id
matches; every other field of that entry and every other entry of the list
is left unchanged (and the list length is preserved). -/
theorem c7_update_anchor_frame :
    ∀ (fs : List RegistryEntry) (id : Nat) (r : BlockchainProof),
      (fs.map RegistryEntry.id).Nodup →
      (update_blockchain_first fs id r).length = fs.length ∧
      ∀ j, j < fs.length →
        ((fs.getD j default).id ≠ id →
          (update_blockchain_first fs id r).getD j default = fs.getD j default) ∧
        ((fs.getD j default).id = id →
          ((update_blockchain_first fs id r).getD j default).id = (fs.getD j default).id ∧
          ((update_blockchain_first fs id r).getD j default).file_name =
            (fs.getD j default).file_name ∧
          ((update_blockchain_first fs id r).getD j default).original_path =
            (fs.getD j default).original_path ∧
          ((update_blockchain_first fs id r).getD j default).hash = (fs.getD j default).hash ∧
          ((update_blockchain_first fs id r).getD j default).hash_algorithm =
            (fs.getD j default).hash_algorithm ∧
          ((update_blockchain_first fs id r).getD j default).registered_at =
            (fs.getD j default).registered_at ∧
          ((update_blockchain_first fs id r).getD j default).project =
            (fs.getD j default).project ∧
          ((update_blockchain_first fs id r).getD j default).client =
            (fs.getD j default).client ∧
          ((update_blockchain_first fs id r).getD j default).description =
            (fs.getD j default).description ∧
          ((update_blockchain_first fs id r).getD j default).proofs_local =
            (fs.getD j default).proofs_local ∧
          ((update_blockchain_first fs id r).getD j default).status =
            (fs.getD j default).status ∧
          ((update_blockchain_first fs id r).getD j default).proofs_blockchain = some r) := by
  intro fs id r hnd
  rw [update_blockchain_first_eq_map fs id r hnd]
  refine ⟨by simp, ?_⟩
  intro j hj
  have hg := getD_map_lt
    (fun e => if e.id = id then { e with proofs_blockchain := some r } else e)
    fs j hj default default
  constructor
  · intro hne
    rw [hg, if_neg hne]
  · intro heq
    rw [hg, if_pos heq]
    exact ⟨rfl, rfl, rfl, rfl, rfl, rfl, rfl, rfl, rfl, rfl, rfl, rfl⟩

theorem c7_witness :
    (update_blockchain_first [entryA, entryB] 1 bpA).length = [entryA, entryB].length ∧
    ∀ j, j < [entryA, entryB].length →
      (([entryA, entryB].getD j default).id ≠ 1 →
        (update_blockchain_first [entryA, entryB] 1 bpA).getD j default =
          [entryA, entryB].getD j default) ∧
      (([entryA, entryB].getD j default).id = 1 →
        ((update_blockchain_first [entryA, entryB] 1 bpA).getD j default).id =
          ([entryA, entryB].getD j default).id ∧
        ((update_blockchain_first [entryA, entryB] 1 bpA).getD j default).file_name =
          ([entryA, entryB].getD j default).file_name ∧
        ((update_blockchain_first [entryA, entryB] 1 bpA).getD j default).original_path =
          ([entryA, entryB].getD j default).original_path ∧
        ((update_blockchain_first [entryA, entryB] 1 bpA).getD j default).hash =
          ([entryA, entryB].getD j default).hash ∧
        ((update_blockchain_first [entryA, entryB] 1 bpA).getD j default).hash_algorithm =
          ([entryA, entryB].getD j default).hash_algorithm ∧
        ((update_blockchain_first [entryA, entryB] 1 bpA).getD j default).registered_at =
          ([entryA, entryB].getD j default).registered_at ∧
        ((update_blockchain_first [entryA, entryB] 1 bpA).getD j default).project =
          ([entryA, entryB].getD j default).project ∧
        ((update_blockchain_first [entryA, entryB] 1 bpA).getD j default).client =
          ([entryA, entryB].getD j default).client ∧
        ((update_blockchain_first [entryA, entryB] 1 bpA).getD j default).description =
          ([entryA, entryB].getD j default).description ∧
        ((update_blockchain_first [entryA, entryB] 1 bpA).getD j default).proofs_local =
          ([entryA, entryB].getD j default).proofs_local ∧
        ((update_blockchain_first [entryA, entryB] 1 bpA).getD j default).status =
          ([entryA, entryB].getD j default).status ∧
        ((update_blockchain_first [entryA, entryB] 1 bpA).getD j default).proofs_blockchain =
          some bpA) :=
  c7_update_anchor_frame [entryA, entryB] 1 bpA (by simp [entryA, entryB])

/-! ### Retry convergence -/

theorem retry_loop_map_id (env : Env) (st : CopyrightProtector)
    (todo files : List RegistryEntry) :
    (retry_loop env st todo files).1.map RegistryEntry.id = files.map RegistryEntry.id := by
  induction todo generalizing files with
  | nil => rfl
  | cons t rest ih =>
    simp only [retry_loop]
    cases hbp : (CopyrightProtector.create_timestamp_opentimestamps env st t.hash
        (pathStem t.file_name)).1 with
    | none => simpa using ih files
    | some result =>
      simp only [hbp]
      exact (ih _).trans (update_blockchain_first_map_id files t.id result)

theorem update_blockchain_first_mem (fs : List RegistryEntry) (id : Nat)
    (r : BlockchainProof) (hnd : (fs.map RegistryEntry.id).Nodup) :
    ∀ e' ∈ update_blockchain_first fs id r,
      (e' ∈ fs ∧ e'.id ≠ id) ∨ (e'.id = id ∧ e'.proofs_blockchain = some r) := by
  induction fs with
  | nil => intro e' h; simp [update_blockchain_first] at h
  | cons e rest ih =>
    rw [List.map_cons, List.nodup_cons] at hnd
    intro e' he'
    unfold update_blockchain_first at he'
    by_cases hid : e.id = id
    · rw [if_pos (by simp [hid] : (e.id == id) = true)] at he'
      rcases List.mem_cons.mp he' with h | h
      · right
        rw [h]
        exact ⟨hid, rfl⟩
      · left
        refine ⟨List.mem_cons_of_mem e h, ?_⟩
        intro hxe
        exact hnd.1 (hid ▸ hxe ▸ List.mem_map_of_mem RegistryEntry.id h)
    · rw [if_neg (by simp [hid] : ¬ ((e.id == id) = true))] at he'
      rcases List.mem_cons.mp he' with h | h
      · left
        exact ⟨h ▸ List.mem_cons_self e rest, h ▸ hid⟩
      · rcases ih hnd.2 e' h with ⟨hm, hne⟩ | hr
        · exact Or.inl ⟨List.mem_cons_of_mem e hm, hne⟩
        · exact Or.inr hr

theorem retry_loop_all_some (env : Env) (st : CopyrightProtector)
    (todo files : List RegistryEntry)
    (hok : ∀ h, ∃ b, env.urlopen h = Except.ok b)
    (hnd : (files.map RegistryEntry.id).Nodup)
    (hndt : (todo.map RegistryEntry.id).Nodup)
    (hsub : ∀ e ∈ files, e.proofs_blockchain.isSome ∨ e.id ∈ todo.map RegistryEntry.id) :
    ∀ e ∈ (retry_loop env st todo files).1, e.proofs_blockchain.isSome := by
  induction todo generalizing files with
  | nil =>
    intro e he
    rcases hsub e he with h | h
    · exact h
    · simp at h
  | cons t rest ih =>
    rw [List.map_cons, List.nodup_cons] at hndt
    obtain ⟨b, hb⟩ := hok t.hash
    intro e he
    simp only [retry_loop, CopyrightProtector.create_timestamp_opentimestamps, hb] at he
    refine ih (update_blockchain_first files t.id _) ?_ hndt.2 ?_ e he
    · rw [update_blockchain_first_map_id]
      exact hnd
    · intro e' he'
      rcases update_blockchain_first_mem files t.id _ hnd e' he' with ⟨hm, hne⟩ | ⟨_, hbc⟩
      · rcases hsub e' hm with hs | hmid
        · exact Or.inl hs
        · rcases List.mem_cons.mp (List.map_cons RegistryEntry.id t rest ▸ hmid) with h | h
          · exact absurd h hne
          · exact Or.inr h
      · rw [hbc]
        exact Or.inl rfl

theorem retry_loop_events (env : Env) (st : CopyrightProtector)
    (todo files : List RegistryEntry)
    (hok : ∀ h, ∃ b, env.urlopen h = Except.ok b) :
    (retry_loop env st todo files).2.filterMap submitDigest =
      todo.map RegistryEntry.hash ∧
    (retry_loop env st todo files).2.count WriteEvent.registryPersist = 0 := by
  induction todo generalizing files with
  | nil => exact ⟨rfl, rfl⟩
  | cons t rest ih =>
    obtain ⟨b, hb⟩ := hok t.hash
    have hrec := ih (update_blockchain_first files t.id
      { service := "OpenTimestamps", blockchain := "Bitcoin",
        ots_file := st.proofs_dir ++ "/" ++ pathStem t.file_name ++ "_" ++
          (t.hash.take 16) ++ ".ots",
        verification_url := "https://opentimestamps.org/",
        status := "pending_confirmation",
        note := "Подтверждение в блокчейне Bitcoin занимает ~2 часа" })
    constructor
    · simp only [retry_loop, CopyrightProtector.create_timestamp_opentimestamps, hb,
        List.filterMap_append, List.map_cons]
      rw [hrec.1]
      rfl
    · simp only [retry_loop, CopyrightProtector.create_timestamp_opentimestamps, hb,
        List.count_append]
      rw [hrec.2]
      rfl

/-- **C3** as stated is FALSE at N = 0: when no entry is pending,
`retry_pending_files` returns early and never persists the registry, so
"persists the registry exactly once" fails even with an always-succeeding
anchor client (here on a registry whose single entry is already
anchored). -/
theorem c3_counterexample :
    (∀ h, ∃ b, envOk.urlopen h = Except.ok b) ∧
    ¬ ((retry_pending_files envOk stAnchored).2.count WriteEvent.registryPersist = 1) := by
  constructor
  · intro h
    exact ⟨[1, 2, 3], rfl⟩
  · have hr : retry_pending_files envOk stAnchored = (stAnchored, []) := rfl
    rw [hr]
    simp

/-- **C3 (amended)** Retry convergence and single persist, for at least one
pending entry: on a registry with pairwise-distinct ids containing at least
one entry with an absent blockchain proof, `retry_pending_files` with an
always-succeeding anchor client submits exactly once per pending entry (in
registry order), leaves every entry with a present receipt, keeps the
registry length, and persists exactly once, after the full pass.  (When no
entry is pending it returns early without persisting.) -/
theorem c3_retry_convergence :
    ∀ (env : Env) (st : CopyrightProtector),
      (∀ h, ∃ b, env.urlopen h = Except.ok b) →
      (st.registry.files.map RegistryEntry.id).Nodup →
      st.registry.files.filter (fun e => e.proofs_blockchain == none) ≠ [] →
      ∃ st' ws, retry_pending_files env st = (st', ws) ∧
        (∀ e ∈ st'.registry.files, e.proofs_blockchain.isSome) ∧
        ws.filterMap submitDigest =
          (st.registry.files.filter (fun e => e.proofs_blockchain == none)).map
            RegistryEntry.hash ∧
        ws.count WriteEvent.registryPersist = 1 ∧
        ws.getLast? = some WriteEvent.registryPersist ∧
        st'.registry.files.length = st.registry.files.length := by
  intro env st hok hnd hne
  have hemp : (st.registry.files.filter
      (fun e => e.proofs_blockchain == none)).isEmpty = false :=
    List.isEmpty_eq_false.mpr hne
  have hndp : ((st.registry.files.filter
      (fun e => e.proofs_blockchain == none)).map RegistryEntry.id).Nodup :=
    ((List.filter_sublist st.registry.files).map RegistryEntry.id).nodup hnd
  have hsub : ∀ e ∈ st.registry.files, e.proofs_blockchain.isSome ∨
      e.id ∈ (st.registry.files.filter
        (fun e => e.proofs_blockchain == none)).map RegistryEntry.id := by
    intro e he
    by_cases hbc : e.proofs_blockchain = none
    · right
      exact List.mem_map_of_mem RegistryEntry.id (List.mem_filter.mpr ⟨he, by simp [hbc]⟩)
    · left
      exact Option.ne_none_iff_isSome.mp hbc
  refine ⟨⟨st.base_dir, CopyrightProtector.save_registry env
      ⟨(retry_loop env st (st.registry.files.filter
          (fun e => e.proofs_blockchain == none)) st.registry.files).1,
        st.registry.metadata_created, st.registry.metadata_updated⟩⟩,
    (retry_loop env st (st.registry.files.filter
        (fun e => e.proofs_blockchain == none)) st.registry.files).2 ++
      [WriteEvent.registryPersist], ?_, ?_, ?_, ?_, ?_, ?_⟩
  · simp only [retry_pending_files, hemp, Bool.false_eq_true, if_false]
  · intro e he
    simp only [CopyrightProtector.save_registry] at he
    exact retry_loop_all_some env st _ st.registry.files hok hnd hndp hsub e he
  · rw [List.filterMap_append,
      (retry_loop_events env st _ st.registry.files hok).1]
    simp [submitDigest]
  · rw [List.count_append, (retry_loop_events env st _ st.registry.files hok).2]
    rfl
  · exact List.getLast?_concat _
  · have hlen := congrArg List.length
      (retry_loop_map_id env st (st.registry.files.filter
        (fun e => e.proofs_blockchain == none)) st.registry.files)
    simp only [List.length_map] at hlen
    simpa [CopyrightProtector.save_registry] using hlen

theorem c3_witness :
    ∃ st' ws, retry_pending_files envOk stA = (st', ws) ∧
      (∀ e ∈ st'.registry.files, e.proofs_blockchain.isSome) ∧
      ws.filterMap submitDigest =
        (stA.registry.files.filter (fun e => e.proofs_blockchain == none)).map
          RegistryEntry.hash ∧
      ws.count WriteEvent.registryPersist = 1 ∧
      ws.getLast? = some WriteEvent.registryPersist ∧
      st'.registry.files.length = stA.registry.files.length :=
  c3_retry_convergence envOk stA (fun h => ⟨[1, 2, 3], rfl⟩)
    (by simp [stA, regEmpty, entryA])
    (by simp [stA, regEmpty, entryA, List.filter])

/-! ### Id assignment invariant -/

theorem protect_file_map_id (env : Env) (st : CopyrightProtector) (path : String)
    (pn cn d : Option String) :
    ((CopyrightProtector.protect_file env st path pn cn d).2.1.registry.files.map
        RegistryEntry.id = st.registry.files.map RegistryEntry.id) ∨
    ((CopyrightProtector.protect_file env st path pn cn d).2.1.registry.files.map
        RegistryEntry.id =
      st.registry.files.map RegistryEntry.id ++ [st.registry.files.length + 1]) := by
  cases henv : env.fs path with
  | none => exact Or.inl (by simp [CopyrightProtector.protect_file, henv])
  | some content =>
    cases hfind : st.registry.files.find?
        (fun e => e.hash == CopyrightProtector.calculate_hash content) with
    | some entry => exact Or.inl (by simp [CopyrightProtector.protect_file, henv, hfind])
    | none =>
      rcases hlp : CopyrightProtector.create_local_proof env st path
          (CopyrightProtector.calculate_hash content) with ⟨res, w1⟩
      cases res with
      | error err =>
        exact Or.inl (by simp [CopyrightProtector.protect_file, henv, hfind, hlp])
      | ok lp =>
        right
        simp [CopyrightProtector.protect_file, henv, hfind, hlp,
          CopyrightProtector.save_registry]

theorem retry_pending_files_map_id (env : Env) (st : CopyrightProtector) :
    (retry_pending_files env st).1.registry.files.map RegistryEntry.id =
      st.registry.files.map RegistryEntry.id := by
  cases hemp : (st.registry.files.filter (fun e => e.proofs_blockchain == none)).isEmpty with
  | true => simp [retry_pending_files, hemp]
  | false =>
    simp only [retry_pending_files, hemp, Bool.false_eq_true, if_false,
      CopyrightProtector.save_registry]
    exact retry_loop_map_id env st _ st.registry.files

/-- **C6** Id assignment invariant: in every protector state reachable from
the empty registry through the provided operations, the sequence of entry
ids is exactly `1, 2, …, n` in insertion order — ids are 1-based, unique
and strictly increasing, and are never reused (no operation removes
entries) — and whenever `protect_file` appends a new entry it assigns it
id = current entry count + 1 (otherwise it leaves the files unchanged). -/
theorem c6_id_assignment :
    ∀ st, Reachable st →
      (st.registry.files.map RegistryEntry.id =
          List.range' 1 st.registry.files.length ∧
        (st.registry.files.map RegistryEntry.id).Nodup ∧
        List.Pairwise (· < ·) (st.registry.files.map RegistryEntry.id)) ∧
      (∀ (env : Env) (path : String) (pn cn d : Option String) (e : RegistryEntry)
         (st' : CopyrightProtector) (w : List WriteEvent),
         CopyrightProtector.protect_file env st path pn cn d = (.ok e, st', w) →
         st'.registry.files = st.registry.files ∨
         (st'.registry.files = st.registry.files ++ [e] ∧
          e.id = st.registry.files.length + 1)) := by
  have hinv : ∀ st, Reachable st →
      st.registry.files.map RegistryEntry.id =
        List.range' 1 st.registry.files.length := by
    intro st h
    induction h with
    | init b c => rfl
    | protect env0 st0 path pn cn d hr ih =>
      rcases protect_file_map_id env0 st0 path pn cn d with hm | hm
      · have hlen : (CopyrightProtector.protect_file env0 st0 path pn cn
            d).2.1.registry.files.length = st0.registry.files.length := by
          have := congrArg List.length hm
          simpa using this
        rw [hm, hlen]
        exact ih
      · have hlen : (CopyrightProtector.protect_file env0 st0 path pn cn
            d).2.1.registry.files.length = st0.registry.files.length + 1 := by
          have := congrArg List.length hm
          simpa using this
        rw [hm, ih, hlen]
        have h1 : [st0.registry.files.length + 1] =
            List.range' (1 + st0.registry.files.length) 1 := by
          simp [List.range'_one, Nat.add_comm]
        rw [h1, List.range'_append_1, Nat.add_comm]
    | retry env0 st0 hr ih =>
      have hm := retry_pending_files_map_id env0 st0
      have hlen : (retry_pending_files env0 st0).1.registry.files.length =
          st0.registry.files.length := by
        have := congrArg List.length hm
        simpa using this
      rw [hm, hlen]
      exact ih
  intro st h
  refine ⟨⟨hinv st h, ?_, ?_⟩, ?_⟩
  · rw [hinv st h]
    exact List.nodup_range' 1 _
  · rw [hinv st h]
    exact List.pairwise_lt_range' 1 _
  · intro env0 path pn cn d e st' w hcall
    cases henv : env0.fs path with
    | none => simp [CopyrightProtector.protect_file, henv] at hcall
    | some content =>
      cases hfind : st.registry.files.find?
          (fun x => x.hash == CopyrightProtector.calculate_hash content) with
      | some entry =>
        simp only [CopyrightProtector.protect_file, henv, hfind, Prod.mk.injEq,
          Except.ok.injEq] at hcall
        left
        rw [← hcall.2.1]
      | none =>
        rcases hlp : CopyrightProtector.create_local_proof env0 st path
            (CopyrightProtector.calculate_hash content) with ⟨res, w1⟩
        cases res with
        | error err =>
          simp [CopyrightProtector.protect_file, henv, hfind, hlp] at hcall
        | ok lp =>
          simp only [CopyrightProtector.protect_file, henv, hfind, hlp, Prod.mk.injEq,
            Except.ok.injEq] at hcall
          obtain ⟨he, hst', _⟩ := hcall
          right
          constructor
          · rw [← hst', ← he]
            simp [CopyrightProtector.save_registry]
          · rw [← he]

theorem c6_witness :
    (stB.registry.files.map RegistryEntry.id =
        List.range' 1 stB.registry.files.length ∧
      (stB.registry.files.map RegistryEntry.id).Nodup ∧
      List.Pairwise (· < ·) (stB.registry.files.map RegistryEntry.id)) ∧
    (∀ (env : Env) (path : String) (pn cn d : Option String) (e : RegistryEntry)
       (st' : CopyrightProtector) (w : List WriteEvent),
       CopyrightProtector.protect_file env stB path pn cn d = (.ok e, st', w) →
       st'.registry.files = stB.registry.files ∨
       (st'.registry.files = stB.registry.files ++ [e] ∧
        e.id = stB.registry.files.length + 1)) :=
  c6_id_assignment stB (Reachable.init "/base" "t0")
